import Mathlib

/-!
# Verification of the pacai turn-scheduling and agent-isolation core

This file gives a shallow embedding, in Lean 4, of the core data model and
operations of the pacai game engine:

* `Ticket` and its ordering / advancement (`src/pacai/core/ticket.py`);
* the game state's scheduler glue: initial ticket issuance, next-agent
  selection and turn processing (`src/pacai/core/gamestate.py`);
* agent action records (`src/pacai/core/agentaction.py`);
* the direct ("none") isolator (`src/pacai/core/isolation/none.py`);
* the process-boundary isolator, modelled as a state machine whose calls
  additionally emit a trace of channel/process operations
  (`src/pacai/core/isolation/process.py`);
* the orchestrator's turn processing and post-loop shutdown sequence
  (`src/pacai/core/game.py`).

Python `dict`s (which preserve insertion order) are modelled as association
lists with distinct keys; Python exceptions are modelled with `Except` or
`Option`; machine-independent Python integers are modelled with `Int`.

The file is organised as definitions first (section by source module),
followed by helper lemmas, followed by the verified properties.
-/

namespace Pacai

/-! ## Tickets (`src/pacai/core/ticket.py`) -/

/-- `Ticket` from `pacai/core/ticket.py`: a tuple of
`(next move time, last move time, number of moves)`. -/
structure Ticket where
  next_time : Int
  last_time : Int
  num_moves : Int
deriving DecidableEq

/-- `Ticket.is_before`: Python tuple comparison
`(self.next_time, self.last_time, self.num_moves) < (other....)`,
i.e. lexicographic order on the triple. -/
def Ticket.is_before (self other : Ticket) : Bool :=
  if self.next_time ≠ other.next_time then self.next_time < other.next_time
  else if self.last_time ≠ other.last_time then self.last_time < other.last_time
  else self.num_moves < other.num_moves

/-- `Ticket.next`: the next ticket in the sequence for this agent. -/
def Ticket.next (self : Ticket) (move_delay : Int) : Ticket :=
  { next_time := self.next_time + move_delay,
    last_time := self.next_time,
    num_moves := self.num_moves + 1 }

/-- The triple a ticket is compared by. -/
def Ticket.triple (self : Ticket) : Int × Int × Int :=
  (self.next_time, self.last_time, self.num_moves)

/-! ## Actions and agent action records
(`src/pacai/core/action.py`, `src/pacai/core/agentaction.py`) -/

/-- `pacai.core.action.Action` instances are just strings
("Actions are just strings with no additional functionality"). -/
abbrev Action := String

/-- `pacai.core.action.STOP = Action("stop")`; the constructor strips and
upper-cases its input. -/
def STOP : Action := "STOP"

/-- `AgentAction` from `pacai/core/agentaction.py`: the full response by an
agent when an action is requested.  Only the fields the verified operations
read are carried; the remaining side-channel fields (`board_highlights`,
`training_info`, `other_info`) are opaque payloads never inspected by the
code modelled here. -/
structure AgentAction where
  action : Action := STOP
  clear_inputs : Bool := false
deriving DecidableEq

/-- `AgentActionRecord` from `pacai/core/agentaction.py`: the administrative
wrapper around a requested decision.  `duration` is in milliseconds. -/
structure AgentActionRecord where
  agent_index : Int
  agent_action : Option AgentAction
  duration : Int
  crashed : Bool := false
  timeout : Bool := false
deriving DecidableEq

/-- `AgentActionRecord.get_action`: the agent's action, or `STOP` when there
is no action. -/
def AgentActionRecord.get_action (self : AgentActionRecord) : Action :=
  match self.agent_action with
  | none => STOP
  | some a => a.action

/-- `AgentActionRecord.get_clear_inputs`. -/
def AgentActionRecord.get_clear_inputs (self : AgentActionRecord) : Bool :=
  match self.agent_action with
  | none => false
  | some a => a.clear_inputs

/-- Python exceptions that the engine itself raises (as opposed to agent
exceptions, which are always caught at the isolation boundary). -/
inductive PyErr where
  | valueError
  | keyError
deriving DecidableEq

/-! ## The direct ("none") isolator (`src/pacai/core/isolation/none.py`) -/

/-- The observable outcome of calling one of an agent's methods
(`game_start_full`, `get_action_full`, `game_complete_full`): the call either
returns an `AgentAction` or raises some exception. -/
inductive AgentOutcome where
  | returns (a : AgentAction)
  | raises
deriving DecidableEq

/-- `_call_agent_method` from `pacai/core/isolation/none.py`: call a method
on the agent; any exception is caught, logged, and turned into
`crashed = true` (with `agent_action` left `None`).  `timeout` keeps its
default value `false`. -/
def noneCallAgentMethod (agent_index : Int) (outcome : AgentOutcome)
    (duration : Int) : AgentActionRecord :=
  match outcome with
  | .returns a =>
      { agent_index := agent_index, agent_action := some a,
        duration := duration, crashed := false }
  | .raises =>
      { agent_index := agent_index, agent_action := none,
        duration := duration, crashed := true }

/-- The state of a `NoneIsolator`: the indexes of the agents it manages
(`self._agents`, a dict keyed by agent index).  The behaviour of each agent
method call is supplied externally as an `AgentOutcome` per agent. -/
structure NoneIsolator where
  agents : List Int
deriving DecidableEq

/-- `NoneIsolator.game_start`: calls `game_start_full` on every managed
agent via `_call_agent_method`, building a dict of records.  Agent
exceptions never escape: the function is total. -/
def NoneIsolator.game_start (self : NoneIsolator)
    (outcome : Int → AgentOutcome) (duration : Int → Int) :
    List (Int × AgentActionRecord) :=
  self.agents.map (fun i => (i, noneCallAgentMethod i (outcome i) (duration i)))

/-- `NoneIsolator.game_complete`: calls `game_complete_full` on every
managed agent via `_call_agent_method`. -/
def NoneIsolator.game_complete (self : NoneIsolator)
    (outcome : Int → AgentOutcome) (duration : Int → Int) :
    List (Int × AgentActionRecord) :=
  self.agents.map (fun i => (i, noneCallAgentMethod i (outcome i) (duration i)))

/-- `NoneIsolator.get_action`: looks up `self._agents[state.agent_index]`
(a `KeyError` if the index is not managed — an engine error, raised before
any agent code runs) and calls `get_action_full` via `_call_agent_method`. -/
def NoneIsolator.get_action (self : NoneIsolator) (state_agent_index : Int)
    (outcome : AgentOutcome) (duration : Int) :
    Except PyErr AgentActionRecord :=
  if state_agent_index ∈ self.agents then
    .ok (noneCallAgentMethod state_agent_index outcome duration)
  else
    .error .keyError

/-! ## The process-boundary isolator (`src/pacai/core/isolation/process.py`)

Each agent has two one-directional channels: a message queue
(orchestrator → participant process, `self._agent_message_queues`) and an
action queue (participant process → orchestrator,
`self._agent_action_queues`).  Calls are modelled as state transitions that
additionally emit a trace of channel and process operations, so that
"attempts no channel communication" and the shutdown protocol are provable
statements about the emitted trace. -/

/-- A channel identifier: the message queue or the action queue of agent
`i`. -/
inductive ChannelId where
  | msg (i : Int)
  | act (i : Int)
deriving DecidableEq

/-- Channel and process operations performed by the process isolator. -/
inductive IsoOp where
  | putMsg (i : Int)
  | getAct (i : Int)
  | closeChannel (c : ChannelId)
  | drainChannel (c : ChannelId)
  | join (i : Int)
  | terminate (i : Int)
  | reapJoin (i : Int)
  | kill (i : Int)
deriving DecidableEq

/-- The orchestrator-side state of a `ProcessIsolator`: the agent indexes
(keys of `_agent_processes` / `_agent_message_queues` /
`_agent_action_queues`, which are always kept in sync) and the `_closed`
flag. -/
structure ProcessIsolator where
  agent_indexes : List Int
  closed : Bool := false
deriving DecidableEq

/-- `_join_process` from `pacai/core/isolation/process.py`:
`join(JOIN_WAIT_SECS)`; if the process is still alive, `terminate()` and
`join(REAP_WAIT_SECS)`; if it is still alive after that, `kill()`.
`alive i = (a1, a2)` says whether process `i` is still alive after the
first and second bounded waits. -/
def joinProcess (i : Int) (alive : Int → Bool × Bool) : List IsoOp :=
  [.join i] ++
    (if (alive i).1 then
      [.terminate i, .reapJoin i] ++ (if (alive i).2 then [.kill i] else [])
    else [])

/-- `ProcessIsolator.close`: if already closed, return immediately.
Otherwise close all sending (message) queues; then the drain loop —
which in the source iterates `self._agent_message_queues` again
(`process.py` line 138) — drains the message queues; then `_join_process`
every process; clear all three dicts and set `_closed`. -/
def ProcessIsolator.close (self : ProcessIsolator)
    (alive : Int → Bool × Bool) : ProcessIsolator × List IsoOp :=
  if self.closed then (self, [])
  else
    ({ agent_indexes := [], closed := true },
      (self.agent_indexes.map (fun i => IsoOp.closeChannel (.msg i))) ++
      (self.agent_indexes.map (fun i => IsoOp.drainChannel (.msg i))) ++
      (self.agent_indexes.flatMap (fun i => joinProcess i alive)))

/-- The outcome of `action_queue.get(True, timeout_secs)`: either a value
(`AgentAction | None`) arrives in time, or the read times out
(`queue.Empty`). -/
inductive QueueRead where
  | value (a : Option AgentAction)
  | timedOut
deriving DecidableEq

/-- `ProcessIsolator._send_agent_message`: look up the agent's queues
(`KeyError` when absent), `put` the message on the message queue, then
`get` from the action queue.  A `None` sentinel means the agent crashed; a
timed-out read sets `timeout = true` and immediately closes the whole
isolator as part of the same call. -/
def ProcessIsolator.send_agent_message (self : ProcessIsolator)
    (agent_index : Int) (read : QueueRead) (duration : Int)
    (alive : Int → Bool × Bool) :
    Except PyErr (AgentActionRecord × ProcessIsolator × List IsoOp) :=
  if agent_index ∈ self.agent_indexes then
    match read with
    | .value a =>
        .ok ({ agent_index := agent_index, agent_action := a,
               duration := duration, crashed := a.isNone, timeout := false },
             self, [.putMsg agent_index, .getAct agent_index])
    | .timedOut =>
        let closeResult := self.close alive
        .ok ({ agent_index := agent_index, agent_action := none,
               duration := duration, crashed := false, timeout := true },
             closeResult.1,
             [.putMsg agent_index, .getAct agent_index] ++ closeResult.2)
  else .error .keyError

/-- Dict-assignment on the key set: `d[k] = v` keeps the position of an
existing key and appends a fresh one. -/
def dictInsertKey (l : List Int) (k : Int) : List Int :=
  if k ∈ l then l else l ++ [k]

/-- `ProcessIsolator.init_agents`: raises `ValueError` when the isolator is
already closed; otherwise launches one process plus one queue pair per
agent (no channel communication happens here). -/
def ProcessIsolator.init_agents (self : ProcessIsolator)
    (new_agents : List Int) : Except PyErr ProcessIsolator :=
  if self.closed then .error .valueError
  else .ok { self with
             agent_indexes := new_agents.foldl dictInsertKey self.agent_indexes }

/-- The shared loop body of `ProcessIsolator.game_start` and
`ProcessIsolator.game_complete`: send each agent its message in key order,
and stop (`break`) as soon as a record comes back with `timeout = true`. -/
def processAgentLoop (s : ProcessIsolator) (agents : List Int)
    (read : Int → QueueRead) (duration : Int → Int)
    (alive : Int → Bool × Bool) :
    Except PyErr (List (Int × AgentActionRecord) × ProcessIsolator × List IsoOp) :=
  match agents with
  | [] => .ok ([], s, [])
  | i :: rest =>
    match s.send_agent_message i (read i) (duration i) alive with
    | .error e => .error e
    | .ok (r, s', ops) =>
      if r.timeout then .ok ([(i, r)], s', ops)
      else
        match processAgentLoop s' rest read duration alive with
        | .error e => .error e
        | .ok (rs, s'', ops') => .ok ((i, r) :: rs, s'', ops ++ ops')

/-- `ProcessIsolator.game_start`: raises `ValueError` when closed, otherwise
sends every agent a `start` message, breaking on the first timeout. -/
def ProcessIsolator.game_start (self : ProcessIsolator)
    (read : Int → QueueRead) (duration : Int → Int)
    (alive : Int → Bool × Bool) :
    Except PyErr (List (Int × AgentActionRecord) × ProcessIsolator × List IsoOp) :=
  if self.closed then .error .valueError
  else processAgentLoop self self.agent_indexes read duration alive

/-- `ProcessIsolator.game_complete`: returns the empty record dict
immediately when closed (performing no channel communication), otherwise
sends every agent a `complete` message, breaking on the first timeout. -/
def ProcessIsolator.game_complete (self : ProcessIsolator)
    (read : Int → QueueRead) (duration : Int → Int)
    (alive : Int → Bool × Bool) :
    Except PyErr (List (Int × AgentActionRecord) × ProcessIsolator × List IsoOp) :=
  if self.closed then .ok ([], self, [])
  else processAgentLoop self self.agent_indexes read duration alive

/-- `ProcessIsolator.get_action`: raises `ValueError` when closed, otherwise
sends the current agent an `action` message. -/
def ProcessIsolator.get_action (self : ProcessIsolator)
    (state_agent_index : Int) (read : QueueRead) (duration : Int)
    (alive : Int → Bool × Bool) :
    Except PyErr (AgentActionRecord × ProcessIsolator × List IsoOp) :=
  if self.closed then .error .valueError
  else self.send_agent_message state_agent_index read duration alive

/-- The shutdown protocol as the specification words it (for comparison
with the code): `close()` closes the outbound-direction
(participant-to-orchestrator) channels — the action queues — and drains the
inbound-direction (orchestrator-to-participant) channels — the message
queues. -/
def closeShutdownClaim (s : ProcessIsolator) (alive : Int → Bool × Bool) :
    Prop :=
  (∀ i ∈ s.agent_indexes,
    IsoOp.closeChannel (.act i) ∈ (s.close alive).2) ∧
  (∀ i ∈ s.agent_indexes,
    IsoOp.drainChannel (.msg i) ∈ (s.close alive).2)

/-! ## Game state and scheduler glue (`src/pacai/core/gamestate.py`)

Python dicts preserve insertion order; they are modelled as association
lists.  `dictGet` is dict lookup (`d[k]`, `none` meaning `KeyError`), and
`dictSet` is dict assignment (`d[k] = v`), which overwrites in place or
appends a fresh key. -/

/-- Dict lookup: the value stored at key `k`, if any. -/
def dictGet {α : Type} (l : List (Int × α)) (k : Int) : Option α :=
  match l with
  | [] => none
  | (k', v) :: rest => if k' = k then some v else dictGet rest k

/-- Dict assignment `d[k] = v`: overwrite an existing key in place, append
a fresh one. -/
def dictSet {α : Type} (l : List (Int × α)) (k : Int) (v : α) :
    List (Int × α) :=
  match l with
  | [] => [(k, v)]
  | (k', v') :: rest =>
    if k' = k then (k, v) :: rest else (k', v') :: dictSet rest k v

/-- The keys of a dict, in insertion order. -/
def dictKeys {α : Type} (l : List (Int × α)) : List Int := l.map Prod.fst

/-- A board position. -/
abbrev Position := Int × Int

/-- The part of `pacai.core.board.Board` that the verified operations
consult: agent positions (`get_agent_position`, `None` when the agent is
not on the board) and the neighbor moves from a position
(`get_neighbors`). -/
structure Board where
  agent_positions : List (Int × Position)
  neighbors : Position → List (Action × Position)

/-- `GameState` from `pacai/core/gamestate.py` (the base class): the fields
used by the scheduler glue and turn processing.  `score` is carried as an
integer payload (no arithmetic on it is modelled). -/
structure GameState where
  board : Board
  agent_index : Int := -1
  last_agent_index : Int := -1
  game_over : Bool := false
  agent_actions : List (Int × List Action) := []
  score : Int := 0
  turn_count : Int := 0
  move_delays : List (Int × Int) := []
  tickets : List (Int × Ticket) := []

/-- `GameState.compute_move_delay`: look up `self.move_delays[agent_index]`
(`none` meaning `KeyError`). -/
def GameState.compute_move_delay (self : GameState) (agent_index : Int) :
    Option Int :=
  dictGet self.move_delays agent_index

/-- One iteration of the loop in `GameState.get_next_agent_index`:
`if next_index == -1 or ticket.is_before(self.tickets[next_index])`, keep
the new pair.  The carried ticket is exactly `self.tickets[next_index]` of
the source, since a dict holds one entry per key. -/
def ticketMinStep (best : Option (Int × Ticket)) (p : Int × Ticket) :
    Option (Int × Ticket) :=
  match best with
  | none => some p
  | some q => if p.2.is_before q.2 then some p else some q

/-- `GameState.get_next_agent_index`: scan all tickets in insertion order
and return the index holding the lowest ticket (`-1` when there are no
tickets). -/
def GameState.get_next_agent_index (self : GameState) : Int :=
  (self.tickets.foldl ticketMinStep none).elim (-1) Prod.fst

/-- One iteration of the ticket-issuing loop in `GameState.game_start`:
`self.tickets[agent_index] =
Ticket(agent_index + self.compute_move_delay(agent_index), 0, 0)`. -/
def issueTicketStep (self : GameState) (acc : List (Int × Ticket))
    (p : Int × Int) : Option (List (Int × Ticket)) := do
  let d ← self.compute_move_delay p.1
  pure (dictSet acc p.1 (Ticket.mk (p.1 + d) 0 0))

/-- `GameState.game_start`: issue every agent in `move_delays` an initial
ticket `Ticket(agent_index + compute_move_delay(agent_index), 0, 0)`, then
choose the first agent to move. -/
def GameState.game_start (self : GameState) : Option GameState := do
  let tickets ← self.move_delays.foldlM (issueTicketStep self) self.tickets
  let s := { self with
             tickets := tickets,
             last_agent_index := self.agent_index }
  some { s with agent_index := s.get_next_agent_index }

/-- `GameState.process_agent_timeout`: mark the game as over. -/
def GameState.process_agent_timeout (self : GameState)
    (agent_index : Int) : GameState :=
  { self with game_over := true }

/-- `GameState.process_agent_crash`: mark the game as over. -/
def GameState.process_agent_crash (self : GameState)
    (agent_index : Int) : GameState :=
  { self with game_over := true }

/-- `GameState.process_turn_full`: no-op when the game is already over;
otherwise run the (base-class no-op) `process_turn` hook, record the action
in the current agent's history, issue the agent a new ticket, pick the next
agent, and increment the turn count.  `none` models a `KeyError` from the
move-delay or ticket lookup. -/
def GameState.process_turn_full (self : GameState) (action : Action) :
    Option GameState :=
  if self.game_over then some self
  else do
    let actions := (dictGet self.agent_actions self.agent_index).getD []
    let agent_actions :=
      dictSet self.agent_actions self.agent_index (actions ++ [action])
    let d ← self.compute_move_delay self.agent_index
    let t ← dictGet self.tickets self.agent_index
    let tickets := dictSet self.tickets self.agent_index (t.next d)
    let s1 := { self with
                agent_actions := agent_actions, tickets := tickets,
                last_agent_index := self.agent_index, agent_index := -1 }
    let s2 :=
      if s1.game_over then s1
      else { s1 with agent_index := s1.get_next_agent_index }
    some { s2 with turn_count := s2.turn_count + 1 }

/-- `GameState.get_agent_position` for an explicit agent index: raises
`ValueError` when no agent is active, else consults the board. -/
def GameState.get_agent_position (self : GameState) (agent_index : Int) :
    Except PyErr (Option Position) :=
  if agent_index < 0 then .error .valueError
  else .ok (dictGet self.board.agent_positions agent_index)

/-- `GameState.get_legal_actions` at the orchestrator's call site (no
position override): `STOP` is always legal; raises `ValueError` when no
agent is active; an agent off the board can only stop; otherwise the
neighbor moves are added. -/
def GameState.get_legal_actions (self : GameState) :
    Except PyErr (List Action) :=
  if self.agent_index = -1 then .error .valueError
  else
    match self.get_agent_position self.agent_index with
    | .error e => .error e
    | .ok none => .ok [STOP]
    | .ok (some p) =>
      .ok ([STOP] ++ (self.board.neighbors p).map Prod.fst)

/-! ## The orchestrator's turn processing (`src/pacai/core/game.py`) -/

/-- The part of `GameResult` that `Game.process_turn` mutates. -/
structure GameResult where
  timeout_agent_indexes : List Int := []
  crash_agent_indexes : List Int := []

/-- `Game.process_turn` from `pacai/core/game.py`: a timed-out record
invokes the state's timeout hook, a crashed record the crash hook;
otherwise the decision must be in `state.get_legal_actions()` — an illegal
decision raises `ValueError` — and is applied with `process_turn_full`. -/
def gameProcessTurn (state : GameState) (action_record : AgentActionRecord)
    (result : GameResult) : Except PyErr (GameState × GameResult) :=
  if action_record.timeout then
    .ok (state.process_agent_timeout action_record.agent_index,
         { result with timeout_agent_indexes :=
             result.timeout_agent_indexes ++ [action_record.agent_index] })
  else if action_record.crashed then
    .ok (state.process_agent_crash action_record.agent_index,
         { result with crash_agent_indexes :=
             result.crash_agent_indexes ++ [action_record.agent_index] })
  else
    match state.get_legal_actions with
    | .error e => .error e
    | .ok legal =>
      if action_record.get_action ∈ legal then
        match state.process_turn_full action_record.get_action with
        | some s' => .ok (s', result)
        | none => .error .keyError
      else .error .valueError

/-! ## The orchestrator's post-loop shutdown sequence
(`src/pacai/core/game.py`, `Game.run`, lines 416–442)

After the run loop exits, `Game.run` executes, in order: stamp the end
time, `state.game_complete()`, `isolator.game_complete(...)`,
`self.game_complete(state, result)` (the game's final result adjustment),
`ui.game_complete(state)`, `isolator.close()`, `ui.close()`, and saving.
There is no `try`/`finally`: an exception in any step propagates and skips
everything after it.  Each step's outcome is supplied as an `Except`
value, and the model records which cleanup actions were reached. -/

/-- The outcomes of the fallible steps after the run loop. -/
structure RunEndEnv where
  state_game_complete : Except PyErr (List Int)
  isolator_game_complete : Except PyErr (List (Int × AgentActionRecord))
  game_game_complete : Except PyErr Unit
  ui_game_complete : Except PyErr Unit
  ui_close : Except PyErr Unit

/-- Cleanup actions reached by the tail of `Game.run`. -/
inductive RunEvent where
  | isolatorClose
  | uiClose
deriving DecidableEq

/-- The tail of `Game.run` (after the run loop): straight-line sequencing
with no exception handler; `isolator.close()` runs only if
`state.game_complete`, `isolator.game_complete`, the game's
`game_complete` hook and `ui.game_complete` all returned normally. -/
def gameRunEnd (env : RunEndEnv) : Except PyErr Unit × List RunEvent :=
  match env.state_game_complete with
  | .error e => (.error e, [])
  | .ok _ =>
    match env.isolator_game_complete with
    | .error e => (.error e, [])
    | .ok _ =>
      match env.game_game_complete with
      | .error e => (.error e, [])
      | .ok _ =>
        match env.ui_game_complete with
        | .error e => (.error e, [])
        | .ok _ =>
          match env.ui_close with
          | .error e => (.error e, [RunEvent.isolatorClose])
          | .ok _ => (.ok (), [RunEvent.isolatorClose, RunEvent.uiClose])

/-! ## Helper lemmas -/

/-- No ticket is before itself. -/
lemma isBefore_irrefl (a : Ticket) : a.is_before a = false := by
  simp [Ticket.is_before]

/-- `is_before` is transitive. -/
lemma isBefore_trans {a b c : Ticket} (h1 : a.is_before b = true)
    (h2 : b.is_before c = true) : a.is_before c = true := by
  simp only [Ticket.is_before] at *
  split_ifs at * <;> simp_all <;> omega

/-- The complement of `is_before` (i.e. greater-or-equal in the total
order) is transitive. -/
lemma notBefore_trans {a b c : Ticket} (h1 : a.is_before b = false)
    (h2 : b.is_before c = false) : a.is_before c = false := by
  simp only [Ticket.is_before] at *
  split_ifs at * <;> simp_all <;> omega

/-- Dict lookup finds the stored value when keys are distinct. -/
lemma dictGet_of_mem {α : Type} :
    ∀ {l : List (Int × α)} {k : Int} {v : α},
      (dictKeys l).Nodup → (k, v) ∈ l → dictGet l k = some v := by
  intro l
  induction l with
  | nil =>
    intro k v _ hmem
    simp at hmem
  | cons p rest ih =>
    intro k v hnd hmem
    obtain ⟨k', v'⟩ := p
    simp only [dictKeys, List.map_cons, List.nodup_cons] at hnd
    rcases List.mem_cons.mp hmem with heq | hmem'
    · cases heq
      simp [dictGet]
    · have hk : k' ≠ k := by
        intro h
        subst h
        exact hnd.1 (List.mem_map.mpr ⟨(k', v), hmem', rfl⟩)
      simpa [dictGet, hk] using ih hnd.2 hmem'

/-- Assigning a fresh key appends it. -/
lemma dictSet_fresh {α : Type} :
    ∀ (l : List (Int × α)) (k : Int) (v : α),
      k ∉ dictKeys l → dictSet l k v = l ++ [(k, v)] := by
  intro l
  induction l with
  | nil =>
    intro k v _
    simp [dictSet]
  | cons p rest ih =>
    intro k v hk
    simp only [dictKeys, List.map_cons, List.mem_cons, not_or] at hk
    have hne : p.1 ≠ k := fun h => hk.1 h.symm
    simp only [dictSet, hne, if_false, List.cons_append]
    rw [ih k v hk.2]

/-- Running the ticket-issuing loop when every delay lookup succeeds is the
corresponding pure fold. -/
lemma foldlM_issueTicketStep (s : GameState) :
    ∀ (md : List (Int × Int)) (acc : List (Int × Ticket)),
      (∀ p ∈ md, s.compute_move_delay p.1 = some p.2) →
      List.foldlM (issueTicketStep s) acc md =
        some (md.foldl
          (fun acc p => dictSet acc p.1 (Ticket.mk (p.1 + p.2) 0 0)) acc) := by
  intro md
  induction md with
  | nil =>
    intro acc _
    rfl
  | cons p rest ih =>
    intro acc h
    have hp := h p (by simp)
    have hstep : issueTicketStep s acc p =
        some (dictSet acc p.1 (Ticket.mk (p.1 + p.2) 0 0)) := by
      simp [issueTicketStep, hp]
    rw [List.foldlM_cons, hstep]
    simpa using ih (dictSet acc p.1 (Ticket.mk (p.1 + p.2) 0 0))
      (fun q hq => h q (by simp [hq]))

/-- Folding fresh dict assignments over an empty-keyed accumulator appends
the mapped entries in order. -/
lemma foldl_dictSet_map :
    ∀ (md : List (Int × Int)) (acc : List (Int × Ticket)),
      (dictKeys md).Nodup →
      (∀ k ∈ dictKeys md, k ∉ dictKeys acc) →
      md.foldl (fun acc p => dictSet acc p.1 (Ticket.mk (p.1 + p.2) 0 0)) acc =
        acc ++ md.map (fun p => (p.1, Ticket.mk (p.1 + p.2) 0 0)) := by
  intro md
  induction md with
  | nil =>
    intro acc _ _
    simp
  | cons p rest ih =>
    intro acc hnd hfr
    simp only [dictKeys, List.map_cons, List.nodup_cons] at hnd
    have hfresh : p.1 ∉ dictKeys acc := hfr p.1 (by simp [dictKeys])
    rw [List.foldl_cons, dictSet_fresh acc p.1 _ hfresh,
      ih (acc ++ [(p.1, Ticket.mk (p.1 + p.2) 0 0)]) hnd.2 ?_]
    · simp
    · intro k hk
      simp only [dictKeys, List.map_append, List.mem_append] at *
      rintro (hka | hkp)
      · exact hfr k (by simp [dictKeys, hk]) hka
      · simp at hkp
        subst hkp
        exact hnd.1 hk

/-- The next-agent fold started from a candidate returns a member pair that
no scanned ticket is before. -/
lemma ticketMinStep_fold_min (l : List (Int × Ticket)) :
    ∀ (b : Int × Ticket),
      ∃ m, l.foldl ticketMinStep (some b) = some m ∧ m ∈ b :: l ∧
        ∀ q ∈ b :: l, q.2.is_before m.2 = false := by
  induction l with
  | nil =>
    intro b
    refine ⟨b, rfl, by simp, ?_⟩
    intro q hq
    simp only [List.mem_singleton] at hq
    subst hq
    exact isBefore_irrefl q.2
  | cons p rest ih =>
    intro b
    rw [List.foldl_cons]
    by_cases hc : p.2.is_before b.2 = true
    · have hstep : ticketMinStep (some b) p = some p := by
        simp [ticketMinStep, hc]
      rw [hstep]
      obtain ⟨m, hfold, hmem, hmin⟩ := ih p
      refine ⟨m, hfold, ?_, ?_⟩
      · rcases List.mem_cons.mp hmem with rfl | h
        · simp
        · simp [List.mem_cons.mpr (Or.inr h)]
      · intro q hq
        rcases List.mem_cons.mp hq with rfl | hq'
        · have hpm : p.2.is_before m.2 = false := hmin p (by simp)
          cases hbm : q.2.is_before m.2
          · rfl
          · exfalso
            have := isBefore_trans hc hbm
            rw [hpm] at this
            exact Bool.noConfusion this
        · exact hmin q hq'
    · have hcf : p.2.is_before b.2 = false := by
        revert hc
        cases p.2.is_before b.2 <;> simp
      have hstep : ticketMinStep (some b) p = some b := by
        simp [ticketMinStep, hcf]
      rw [hstep]
      obtain ⟨m, hfold, hmem, hmin⟩ := ih b
      refine ⟨m, hfold, ?_, ?_⟩
      · rcases List.mem_cons.mp hmem with rfl | h
        · simp
        · simp [List.mem_cons.mpr (Or.inr h)]
      · intro q hq
        rcases List.mem_cons.mp hq with rfl | hq'
        · exact hmin q (by simp)
        · rcases List.mem_cons.mp hq' with rfl | hq''
          · have hbm : b.2.is_before m.2 = false := hmin b (by simp)
            exact notBefore_trans hcf hbm
          · exact hmin q (List.mem_cons_of_mem _ hq'')

/-- On a state with at least one ticket, `get_next_agent_index` returns the
index of a pair no stored ticket is before. -/
lemma get_next_agent_index_min (s : GameState) (hne : s.tickets ≠ []) :
    ∃ m, m ∈ s.tickets ∧ s.get_next_agent_index = m.1 ∧
      ∀ q ∈ s.tickets, q.2.is_before m.2 = false := by
  obtain ⟨x, xs, hx⟩ := List.exists_cons_of_ne_nil hne
  obtain ⟨m, hfold, hmem, hmin⟩ := ticketMinStep_fold_min xs x
  refine ⟨m, ?_, ?_, ?_⟩
  · rw [hx]
    exact hmem
  · unfold GameState.get_next_agent_index
    rw [hx, List.foldl_cons]
    have hnonestep : ticketMinStep none x = some x := rfl
    rw [hnonestep, hfold]
    rfl
  · intro q hq
    rw [hx] at hq
    exact hmin q hq

/-! ## Verified properties (claims C1–C10) -/

/-- C7: `Ticket.is_before` is a strict total order over the triple
`(next_time, last_time, num_moves)`: irreflexive, transitive, and total on
distinct triples (exactly one direction holds). -/
theorem ticket_is_before_strict_total_order :
    (∀ a : Ticket, a.is_before a = false) ∧
    (∀ a b c : Ticket, a.is_before b = true → b.is_before c = true →
      a.is_before c = true) ∧
    (∀ a b : Ticket, a.triple ≠ b.triple →
      (a.is_before b = true ∧ b.is_before a = false) ∨
      (a.is_before b = false ∧ b.is_before a = true)) := by
  refine ⟨?_, ?_, ?_⟩
  · intro a
    simp [Ticket.is_before]
  · intro a b c hab hbc
    simp only [Ticket.is_before] at *
    split_ifs at * <;> simp_all <;> omega
  · intro a b hne
    have hne' : a.next_time ≠ b.next_time ∨ a.last_time ≠ b.last_time ∨
        a.num_moves ≠ b.num_moves := by
      by_contra hc
      push_neg at hc
      exact hne (by simp [Ticket.triple, hc.1, hc.2.1, hc.2.2])
    simp only [Ticket.is_before]
    split_ifs <;> simp_all <;> omega

/-- Witness for C7: the transitivity component applied at concrete
tickets. -/
theorem ticket_is_before_strict_total_order_witness :
    (Ticket.mk 0 0 0).is_before (Ticket.mk 2 0 0) = true :=
  ticket_is_before_strict_total_order.2.1 (Ticket.mk 0 0 0) (Ticket.mk 1 0 0)
    (Ticket.mk 2 0 0) (by decide) (by decide)

/-- C8: for every ticket `t` and delay > 0, `t.next delay` is the ticket
`(t.next_time + delay, t.next_time, t.num_moves + 1)`; in particular
`next_time` strictly increases by exactly `delay` and `num_moves` by
exactly 1.  (`Ticket.next` is a pure function: `t` itself is unchanged.) -/
theorem ticket_next_spec (t : Ticket) (delay : Int) (h : 0 < delay) :
    t.next delay =
      { next_time := t.next_time + delay, last_time := t.next_time,
        num_moves := t.num_moves + 1 } ∧
    t.next_time < (t.next delay).next_time ∧
    (t.next delay).next_time = t.next_time + delay ∧
    (t.next delay).last_time = t.next_time ∧
    (t.next delay).num_moves = t.num_moves + 1 := by
  refine ⟨rfl, ?_, rfl, rfl, rfl⟩
  simp [Ticket.next]
  omega

/-- Witness for C8 at a concrete ticket and delay. -/
theorem ticket_next_spec_witness :
    (Ticket.mk 5 2 3).next 4 =
      { next_time := 9, last_time := 5, num_moves := 4 } :=
  (ticket_next_spec (Ticket.mk 5 2 3) 4 (by decide)).1

/-- C2: for the direct ("none") isolator, an exception raised by agent
logic during `game_start`, `get_action`, or `game_complete` is caught at
the call boundary and becomes a record with `crashed = true` and
`timeout = false`; no agent exception propagates (`game_start` and
`game_complete` are total and `get_action` returns `ok` whenever the agent
exists), and a direct-strategy record never has `timeout = true`. -/
theorem none_isolator_crash_handling (iso : NoneIsolator)
    (outcome : Int → AgentOutcome) (duration : Int → Int)
    (i : Int) (hmem : i ∈ iso.agents) :
    (∀ p ∈ iso.game_start outcome duration,
      p.2.timeout = false ∧
      (outcome p.1 = .raises →
        p.2.crashed = true ∧ p.2.agent_action = none)) ∧
    (∀ p ∈ iso.game_complete outcome duration,
      p.2.timeout = false ∧
      (outcome p.1 = .raises →
        p.2.crashed = true ∧ p.2.agent_action = none)) ∧
    (∃ r, iso.get_action i (outcome i) (duration i) = .ok r ∧
      r.timeout = false ∧
      (outcome i = .raises → r.crashed = true ∧ r.agent_action = none)) := by
  refine ⟨?_, ?_, ?_⟩
  · intro p hp
    simp only [NoneIsolator.game_start, List.mem_map] at hp
    obtain ⟨j, _, rfl⟩ := hp
    cases h : outcome j <;> simp [noneCallAgentMethod, h]
  · intro p hp
    simp only [NoneIsolator.game_complete, List.mem_map] at hp
    obtain ⟨j, _, rfl⟩ := hp
    cases h : outcome j <;> simp [noneCallAgentMethod, h]
  · refine ⟨noneCallAgentMethod i (outcome i) (duration i), ?_, ?_, ?_⟩
    · simp [NoneIsolator.get_action, hmem]
    · cases h : outcome i <;> simp [noneCallAgentMethod, h]
    · intro h
      simp [noneCallAgentMethod, h]

/-- Witness for C2: a one-agent direct isolator whose logic raises on every
call produces a crashed, non-timed-out `get_action` record. -/
theorem none_isolator_crash_handling_witness :
    ∃ r, (NoneIsolator.mk [0]).get_action 0 .raises 7 = .ok r ∧
      r.timeout = false ∧
      (AgentOutcome.raises = .raises →
        r.crashed = true ∧ r.agent_action = none) :=
  (none_isolator_crash_handling (NoneIsolator.mk [0])
    (fun _ => .raises) (fun _ => 7) 0 (by decide)).2.2

/-- C1: when a read of the action queue times out, the returned record has
`timeout = true`, the isolator is closed as part of that same call, and
every subsequent call on the instance fails fast without any channel
communication: `init_agents`, `game_start` and `get_action` raise
`ValueError` (emitting no channel operations), and `game_complete` returns
the empty record dict immediately (emitting no channel operations). -/
theorem process_timeout_closes_isolator (s : ProcessIsolator) (i : Int)
    (duration : Int) (alive : Int → Bool × Bool)
    (hopen : s.closed = false) (hmem : i ∈ s.agent_indexes) :
    ∃ r s' ops,
      s.send_agent_message i .timedOut duration alive = .ok (r, s', ops) ∧
      r.timeout = true ∧
      s'.closed = true ∧
      (∀ newAgents, s'.init_agents newAgents = .error .valueError) ∧
      (∀ read dur al, s'.game_start read dur al = .error .valueError) ∧
      (∀ j read dur al, s'.get_action j read dur al = .error .valueError) ∧
      (∀ read dur al, s'.game_complete read dur al = .ok ([], s', [])) := by
  refine ⟨{ agent_index := i, agent_action := none, duration := duration,
            crashed := false, timeout := true },
          { agent_indexes := [], closed := true },
          [.putMsg i, .getAct i] ++ (s.close alive).2,
          ?_, rfl, rfl, ?_, ?_, ?_, ?_⟩
  · simp [ProcessIsolator.send_agent_message, hmem, ProcessIsolator.close,
      hopen]
  · intro newAgents
    simp [ProcessIsolator.init_agents]
  · intro read dur al
    simp [ProcessIsolator.game_start]
  · intro j read dur al
    simp [ProcessIsolator.get_action]
  · intro read dur al
    simp [ProcessIsolator.game_complete]

/-- Witness for C1 at a concrete one-agent isolator. -/
theorem process_timeout_closes_isolator_witness :
    ∃ r s' ops,
      (ProcessIsolator.mk [0] false).send_agent_message 0 .timedOut 9
          (fun _ => (false, false)) = .ok (r, s', ops) ∧
      r.timeout = true ∧
      s'.closed = true ∧
      (∀ newAgents, s'.init_agents newAgents = .error .valueError) ∧
      (∀ read dur al, s'.game_start read dur al = .error .valueError) ∧
      (∀ j read dur al, s'.get_action j read dur al = .error .valueError) ∧
      (∀ read dur al, s'.game_complete read dur al = .ok ([], s', [])) :=
  process_timeout_closes_isolator (ProcessIsolator.mk [0] false) 0 9
    (fun _ => (false, false)) rfl (by decide)

/-- C4: every action record produced by either isolator strategy has at
most one of `crashed` / `timeout` set, and whenever one of them is set the
contained decision (`agent_action`) is absent. -/
theorem action_record_flag_invariant :
    (∀ (i : Int) (o : AgentOutcome) (d : Int),
      ¬ ((noneCallAgentMethod i o d).crashed = true ∧
         (noneCallAgentMethod i o d).timeout = true) ∧
      (((noneCallAgentMethod i o d).crashed = true ∨
        (noneCallAgentMethod i o d).timeout = true) →
        (noneCallAgentMethod i o d).agent_action = none)) ∧
    (∀ (s : ProcessIsolator) (i : Int) (read : QueueRead) (d : Int)
      (alive : Int → Bool × Bool) (r : AgentActionRecord)
      (s' : ProcessIsolator) (ops : List IsoOp),
      s.send_agent_message i read d alive = .ok (r, s', ops) →
      ¬ (r.crashed = true ∧ r.timeout = true) ∧
      ((r.crashed = true ∨ r.timeout = true) → r.agent_action = none)) := by
  constructor
  · intro i o d
    cases o <;> simp [noneCallAgentMethod]
  · intro s i read d alive r s' ops h
    simp only [ProcessIsolator.send_agent_message] at h
    split_ifs at h
    cases read with
    | value a =>
      cases a <;>
        · simp only [Except.ok.injEq, Prod.mk.injEq] at h
          obtain ⟨rfl, -⟩ := h
          simp
    | timedOut =>
      simp only [Except.ok.injEq, Prod.mk.injEq] at h
      obtain ⟨rfl, -⟩ := h
      simp

/-- Witness for C4: the process-strategy component applied to a concrete
crash record (the `None` sentinel was read from the action queue). -/
theorem action_record_flag_invariant_witness :
    ¬ (({ agent_index := 0, agent_action := none, duration := 3,
          crashed := true, timeout := false } : AgentActionRecord).crashed = true ∧
       ({ agent_index := 0, agent_action := none, duration := 3,
          crashed := true, timeout := false } : AgentActionRecord).timeout = true) :=
  (action_record_flag_invariant.2 (ProcessIsolator.mk [0] false) 0
    (.value none) 3 (fun _ => (false, false))
    { agent_index := 0, agent_action := none, duration := 3,
      crashed := true, timeout := false }
    (ProcessIsolator.mk [0] false) [.putMsg 0, .getAct 0] (by rfl)).1

/-- Counterexample for C5: on a one-agent isolator, `close()` never closes
the participant-to-orchestrator (action) channel — it closes (and then
drains) the orchestrator-to-participant (message) channel instead, so the
claimed shutdown protocol is false. -/
theorem process_close_claim_counterexample :
    ¬ closeShutdownClaim (ProcessIsolator.mk [0] false)
        (fun _ => (false, false)) ∧
    IsoOp.closeChannel (.msg 0) ∈
      ((ProcessIsolator.mk [0] false).close (fun _ => (false, false))).2 ∧
    IsoOp.closeChannel (.act 0) ∉
      ((ProcessIsolator.mk [0] false).close (fun _ => (false, false))).2 := by
  refine ⟨?_, by decide, by decide⟩
  intro h
  have := h.1 0 (by decide)
  revert this
  decide

/-- C5 (amended): `close()` on an open isolator closes the
orchestrator-to-participant message channels, then drains (best-effort)
those same message channels — the participant-to-orchestrator action
channels are neither closed nor drained, the drain loop iterating
`_agent_message_queues` (`process.py` line 138) — then joins every process
with a bounded wait, escalating to terminate and finally kill after two
wait intervals; a second `close()` is a no-op, and `close()` on an isolator
with no processes performs no channel or process operation. -/
theorem process_close_spec (s : ProcessIsolator) (alive : Int → Bool × Bool)
    (hopen : s.closed = false) :
    (s.close alive).2 =
      (s.agent_indexes.map (fun i => IsoOp.closeChannel (.msg i))) ++
      (s.agent_indexes.map (fun i => IsoOp.drainChannel (.msg i))) ++
      (s.agent_indexes.flatMap (fun i => joinProcess i alive)) ∧
    (∀ i, IsoOp.closeChannel (.act i) ∉ (s.close alive).2 ∧
          IsoOp.drainChannel (.act i) ∉ (s.close alive).2) ∧
    (s.close alive).1 = { agent_indexes := [], closed := true } ∧
    ((s.close alive).1.close alive = ((s.close alive).1, [])) ∧
    ((ProcessIsolator.mk [] false).close alive =
      ({ agent_indexes := [], closed := true }, [])) := by
  have h2 : (s.close alive).2 =
      (s.agent_indexes.map (fun i => IsoOp.closeChannel (.msg i))) ++
      (s.agent_indexes.map (fun i => IsoOp.drainChannel (.msg i))) ++
      (s.agent_indexes.flatMap (fun i => joinProcess i alive)) := by
    simp [ProcessIsolator.close, hopen]
  refine ⟨h2, ?_, ?_, ?_, ?_⟩
  · intro i
    rw [h2]
    constructor
    · simp only [List.mem_append, List.mem_map, List.mem_flatMap, joinProcess]
      rintro (⟨(⟨j, -, h⟩ | ⟨j, -, h⟩)⟩ | ⟨j, -, h⟩)
      · exact absurd (IsoOp.closeChannel.inj h.symm) (by simp)
      · exact IsoOp.noConfusion h.symm
      · revert h
        split_ifs <;> simp_all
    · simp only [List.mem_append, List.mem_map, List.mem_flatMap, joinProcess]
      rintro (⟨(⟨j, -, h⟩ | ⟨j, -, h⟩)⟩ | ⟨j, -, h⟩)
      · exact IsoOp.noConfusion h.symm
      · exact absurd (IsoOp.drainChannel.inj h.symm) (by simp)
      · revert h
        split_ifs <;> simp_all
  · simp [ProcessIsolator.close, hopen]
  · simp [ProcessIsolator.close, hopen]
  · simp [ProcessIsolator.close]

/-- Witness for C5 (amended) on a concrete two-agent isolator, where one
process survives both bounded waits and the other exits promptly. -/
theorem process_close_spec_witness :
    ((ProcessIsolator.mk [0, 1] false).close
        (fun i => (decide (i = 0), decide (i = 0)))).2 =
      [.closeChannel (.msg 0), .closeChannel (.msg 1),
       .drainChannel (.msg 0), .drainChannel (.msg 1),
       .join 0, .terminate 0, .reapJoin 0, .kill 0, .join 1] :=
  ((process_close_spec (ProcessIsolator.mk [0, 1] false)
      (fun i => (decide (i = 0), decide (i = 0))) rfl).1).trans (by decide)

/-- C10: applying a decision to a state whose `game_over` flag is already
set is a complete no-op: the returned state is the input state, so no
action is recorded, no ticket advances, `agent_index`, `last_agent_index`
and `turn_count` keep their values. -/
theorem process_turn_full_game_over_noop (s : GameState) (a : Action)
    (h : s.game_over = true) :
    s.process_turn_full a = some s ∧
    ∃ s', s.process_turn_full a = some s' ∧
      s'.agent_actions = s.agent_actions ∧
      s'.tickets = s.tickets ∧
      s'.agent_index = s.agent_index ∧
      s'.last_agent_index = s.last_agent_index ∧
      s'.turn_count = s.turn_count ∧
      s'.score = s.score ∧
      s'.game_over = s.game_over := by
  have heq : s.process_turn_full a = some s := by
    simp [GameState.process_turn_full, h]
  exact ⟨heq, s, heq, rfl, rfl, rfl, rfl, rfl, rfl, rfl⟩

/-- Witness for C10 on a concrete finished state. -/
theorem process_turn_full_game_over_noop_witness :
    ({ board := Board.mk [] (fun _ => []), game_over := true,
       agent_index := 2, turn_count := 5,
       tickets := [(2, Ticket.mk 3 1 1)] } : GameState).process_turn_full
        STOP =
      some { board := Board.mk [] (fun _ => []), game_over := true,
             agent_index := 2, turn_count := 5,
             tickets := [(2, Ticket.mk 3 1 1)] } :=
  (process_turn_full_game_over_noop
    { board := Board.mk [] (fun _ => []), game_over := true,
      agent_index := 2, turn_count := 5,
      tickets := [(2, Ticket.mk 3 1 1)] } STOP rfl).1

/-- C6: when a record is neither crashed nor timed out and its decision is
not in the state's currently-legal action set, the orchestrator's
`process_turn` raises a `ValueError` — it never substitutes a legal action
or recovers. -/
theorem illegal_decision_raises (state : GameState)
    (record : AgentActionRecord) (result : GameResult) (legal : List Action)
    (hto : record.timeout = false) (hcr : record.crashed = false)
    (hlegal : state.get_legal_actions = .ok legal)
    (hnot : record.get_action ∉ legal) :
    gameProcessTurn state record result = .error .valueError := by
  simp [gameProcessTurn, hto, hcr, hlegal, hnot]

/-- Witness for C6: an agent whose only legal action is `STOP` returns
`NORTH`; the orchestrator raises. -/
theorem illegal_decision_raises_witness :
    gameProcessTurn
      { board := Board.mk [(0, (1, 1))] (fun _ => []), agent_index := 0 }
      { agent_index := 0, agent_action := some { action := "NORTH" },
        duration := 1 }
      {} = .error .valueError :=
  illegal_decision_raises
    { board := Board.mk [(0, (1, 1))] (fun _ => []), agent_index := 0 }
    { agent_index := 0, agent_action := some { action := "NORTH" },
      duration := 1 }
    {} [STOP] rfl rfl (by rfl) (by decide)

/-- C9: at game start every tracked participant is issued the initial
ticket `(index + move delay, 0, 0)`; the first participant selected to act
holds a minimal ticket; and when all participants share one move delay the
selected participant is the least index. -/
theorem game_start_initial_tickets (s : GameState)
    (hnd : (dictKeys s.move_delays).Nodup) (ht : s.tickets = []) :
    ∃ s', s.game_start = some s' ∧
      s'.tickets = s.move_delays.map
        (fun p => (p.1, Ticket.mk (p.1 + p.2) 0 0)) ∧
      (∀ p ∈ s.move_delays,
        dictGet s'.tickets p.1 = some (Ticket.mk (p.1 + p.2) 0 0)) ∧
      (s.move_delays ≠ [] →
        ∃ t, (s'.agent_index, t) ∈ s'.tickets ∧
          ∀ q ∈ s'.tickets, q.2.is_before t = false) ∧
      (∀ d, (∀ p ∈ s.move_delays, p.2 = d) → s.move_delays ≠ [] →
        s'.agent_index ∈ dictKeys s.move_delays ∧
        ∀ k ∈ dictKeys s.move_delays, s'.agent_index ≤ k) := by
  have hdelay : ∀ p ∈ s.move_delays, s.compute_move_delay p.1 = some p.2 := by
    intro p hp
    have : (p.1, p.2) ∈ s.move_delays := by simpa using hp
    exact dictGet_of_mem hnd this
  have hfold' : List.foldlM (issueTicketStep s) s.tickets s.move_delays =
      some (s.move_delays.map (fun p => (p.1, Ticket.mk (p.1 + p.2) 0 0))) := by
    rw [foldlM_issueTicketStep s s.move_delays s.tickets hdelay, ht,
      foldl_dictSet_map s.move_delays [] hnd (by simp [dictKeys])]
    simp
  have hkeys : dictKeys (s.move_delays.map
      (fun p => (p.1, Ticket.mk (p.1 + p.2) 0 0))) = dictKeys s.move_delays := by
    simp [dictKeys, List.map_map, Function.comp]
  refine ⟨{ s with
            tickets := s.move_delays.map
              (fun p => (p.1, Ticket.mk (p.1 + p.2) 0 0)),
            last_agent_index := s.agent_index,
            agent_index := ({ s with
              tickets := s.move_delays.map
                (fun p => (p.1, Ticket.mk (p.1 + p.2) 0 0)),
              last_agent_index := s.agent_index } : GameState).get_next_agent_index },
          ?_, rfl, ?_, ?_, ?_⟩
  · unfold GameState.game_start
    rw [hfold']
    rfl
  · intro p hp
    have hmemT : (p.1, Ticket.mk (p.1 + p.2) 0 0) ∈ s.move_delays.map
        (fun p => (p.1, Ticket.mk (p.1 + p.2) 0 0)) :=
      List.mem_map_of_mem _ hp
    exact dictGet_of_mem (hkeys ▸ hnd) hmemT
  · intro hne
    have hTne : s.move_delays.map
        (fun p => (p.1, Ticket.mk (p.1 + p.2) 0 0)) ≠ [] := by
      intro hT
      exact hne (List.map_eq_nil_iff.mp hT)
    obtain ⟨m, hmem, hidx, hmin⟩ := get_next_agent_index_min
      { s with
        tickets := s.move_delays.map
          (fun p => (p.1, Ticket.mk (p.1 + p.2) 0 0)),
        last_agent_index := s.agent_index } hTne
    refine ⟨m.2, ?_, fun q hq => hmin q hq⟩
    rw [hidx]
    simpa using hmem
  · intro d hall hne
    have hTne : s.move_delays.map
        (fun p => (p.1, Ticket.mk (p.1 + p.2) 0 0)) ≠ [] := by
      intro hT
      exact hne (List.map_eq_nil_iff.mp hT)
    obtain ⟨m, hmem, hidx, hmin⟩ := get_next_agent_index_min
      { s with
        tickets := s.move_delays.map
          (fun p => (p.1, Ticket.mk (p.1 + p.2) 0 0)),
        last_agent_index := s.agent_index } hTne
    obtain ⟨p, hp, rfl⟩ := List.mem_map.mp hmem
    have hpd : p.2 = d := hall p hp
    constructor
    · rw [hidx]
      exact List.mem_map.mpr ⟨p, hp, rfl⟩
    · intro k hk
      obtain ⟨q, hq, rfl⟩ := List.mem_map.mp hk
      have hqd : q.2 = d := hall q hq
      have hqmem : (q.1, Ticket.mk (q.1 + q.2) 0 0) ∈ s.move_delays.map
          (fun p => (p.1, Ticket.mk (p.1 + p.2) 0 0)) :=
        List.mem_map_of_mem _ hq
      have hfalse := hmin _ hqmem
      rw [hidx]
      show p.1 ≤ q.1
      by_contra hlt
      push_neg at hlt
      have hne2 : q.1 + q.2 ≠ p.1 + p.2 := by omega
      have htrue : (Ticket.mk (q.1 + q.2) 0 0).is_before
          (Ticket.mk (p.1 + p.2) 0 0) = true := by
        simp only [Ticket.is_before]
        rw [if_pos hne2]
        simp
        omega
      rw [hfalse] at htrue
      exact Bool.noConfusion htrue

/-- Witness for C9 on a concrete two-participant state with equal move
delays. -/
theorem game_start_initial_tickets_witness :
    ∃ s', ({ board := Board.mk [] (fun _ => []),
             move_delays := [(0, 2), (1, 2)] } : GameState).game_start =
        some s' ∧
      s'.tickets = [(0, 2), (1, 2)].map
        (fun p => (p.1, Ticket.mk (p.1 + p.2) 0 0)) ∧
      (∀ p ∈ [((0 : Int), (2 : Int)), (1, 2)],
        dictGet s'.tickets p.1 = some (Ticket.mk (p.1 + p.2) 0 0)) ∧
      (([((0 : Int), (2 : Int)), (1, 2)] : List (Int × Int)) ≠ [] →
        ∃ t, (s'.agent_index, t) ∈ s'.tickets ∧
          ∀ q ∈ s'.tickets, q.2.is_before t = false) ∧
      (∀ d, (∀ p ∈ [((0 : Int), (2 : Int)), (1, 2)], p.2 = d) →
        ([((0 : Int), (2 : Int)), (1, 2)] : List (Int × Int)) ≠ [] →
        s'.agent_index ∈ dictKeys [((0 : Int), (2 : Int)), (1, 2)] ∧
        ∀ k ∈ dictKeys [((0 : Int), (2 : Int)), (1, 2)], s'.agent_index ≤ k) :=
  game_start_initial_tickets
    { board := Board.mk [] (fun _ => []), move_delays := [(0, 2), (1, 2)] }
    (by decide) rfl

/-- Counterexample for C3: when the state's `game_complete` hook raises,
the exception propagates out of `Game.run` and `isolator.close()` is never
invoked — close is not a guaranteed cleanup action. -/
theorem run_end_close_counterexample :
    (gameRunEnd
      { state_game_complete := .error .valueError,
        isolator_game_complete := .ok [],
        game_game_complete := .ok (),
        ui_game_complete := .ok (),
        ui_close := .ok () }).1 = .error .valueError ∧
    RunEvent.isolatorClose ∉
      (gameRunEnd
        { state_game_complete := .error .valueError,
          isolator_game_complete := .ok [],
          game_game_complete := .ok (),
          ui_game_complete := .ok (),
          ui_close := .ok () }).2 :=
  ⟨rfl, by decide⟩

/-- C3 (amended): `isolator.close()` is invoked exactly when the state's
`game_complete` hook, the isolator's `game_complete`, the game's final
result adjustment, and the UI `game_complete` call all return without
raising; when any of them raises, the exception propagates and `close()`
is skipped. -/
theorem run_end_close_iff (env : RunEndEnv) :
    RunEvent.isolatorClose ∈ (gameRunEnd env).2 ↔
      ((∃ w, env.state_game_complete = .ok w) ∧
       (∃ r, env.isolator_game_complete = .ok r) ∧
       env.game_game_complete = .ok () ∧
       env.ui_game_complete = .ok ()) := by
  cases h1 : env.state_game_complete <;>
    cases h2 : env.isolator_game_complete <;>
      cases h3 : env.game_game_complete <;>
        cases h4 : env.ui_game_complete <;>
          cases h5 : env.ui_close <;>
            simp [gameRunEnd, h1, h2, h3, h4, h5]

end Pacai
